import Mathlib

/-!
Verification of the `fastfeatures` discovery core against its design spec.

The embedding covers the three core functions:
* `get_features_packages` (src/fastfeatures/core/utils.py) — the package
  scanner, which filters the entries produced by `pkgutil.walk_packages`
  by kind (`is_pkg != modules_only`) and by an unanchored regex search of
  `features\.[^\.]*\.<package_name>$` against the qualified module name;
* `get_sql_models` (src/fastfeatures/core/models_discoverer.py) — imports
  each matched models module, inspects its attributes for table-mapped
  classes, and accumulates the module names in a set;
* `add_features_routes` (src/fastfeatures/core/routes_discoverer.py) —
  imports each matched routes module and includes every `APIRouter`
  attribute into the application.

Qualified names are modelled as `List Char`.  The results of
`pkgutil.walk_packages` are an input (a list of name/kind pairs), and
dynamic imports are an oracle from names to outcomes, so that the control
flow of the two collectors — which exceptions are caught, what is printed,
what is mutated — is modelled explicitly.
-/

/-- Qualified dotted module names are lists of characters. -/
abbrev QName := List Char

/-- True when the string contains no dot: the character class `[^.]*`
matched against a whole string. -/
def dotFree (s : QName) : Bool := !s.contains '.'

/-- Split a string at its first dot: `some (before, after)` when a dot
occurs, `none` otherwise.  `before` is dot-free by construction. -/
def splitAtFirstDot : QName → Option (QName × QName)
  | [] => none
  | c :: cs =>
    if c = '.' then some ([], cs)
    else
      match splitAtFirstDot cs with
      | none => none
      | some (b, a) => some (c :: b, a)

/-- The literal characters matched by the leading `features\.` of the
regex built in `get_features_packages`. -/
def featAnchor : QName := ("features.".toList)

/-- Matcher for the regex tail `[^\.]*\.PAT$` applied to the text that
follows a `features.` occurrence: the `[^.]*\.` part is forced to stop at
the first dot, and `PAT` (given as a whole-string matcher `pat`) must
match the remainder up to the end of the string. -/
def matchTail (pat : QName → Bool) (r : QName) : Bool :=
  match splitAtFirstDot r with
  | none => false
  | some (_, c) => pat c

/-- Model of Python `re.search(fr"features\.[^\.]*\.PAT$", s)`: some
suffix of `s` starts with the literal `features.`, continues with a
dot-free run, a dot, and a final segment matched by `pat` up to the end
of the string. -/
def searchFeaturesPat (pat : QName → Bool) (s : QName) : Bool :=
  s.tails.any (fun t => featAnchor.isPrefixOf t && matchTail pat (t.drop featAnchor.length))

/-- Whole-string matcher for the regex fragment `routes` (all literal
characters), used by `add_features_routes`. -/
def patRoutes (c : QName) : Bool := c == ("routes".toList)

/-- Whole-string matcher for the regex fragment `models.[^\.]*` passed by
`get_sql_models`: the first dot is unescaped in the source, so it matches
the six literal characters of `models`, then any single character, then a
dot-free run. -/
def patModels (c : QName) : Bool :=
  ("models".toList).isPrefixOf c &&
    (match c.drop 6 with
     | [] => false
     | _ :: rest => dotFree rest)

/-- One entry yielded by `pkgutil.walk_packages`: a qualified module name
and the flag telling whether the entry is itself a package. -/
structure PkgEntry where
  modName : QName
  isPkg : Bool
deriving DecidableEq

/-- Model of `get_features_packages` from src/fastfeatures/core/utils.py:
the walk result is the input list; an entry is kept when its package flag
differs from `modules_only` and the regex search succeeds on its name. -/
def get_features_packages (packages : List PkgEntry) (pat : QName → Bool)
    (modules_only : Bool) : List QName :=
  if 0 < packages.length then
    (packages.filter
        (fun e => (e.isPkg != modules_only) && searchFeaturesPat pat e.modName)).map
      (fun e => e.modName)
  else []

/-- Splitting at the first dot of `b ++ '.' :: c` recovers `(b, c)` when
`b` is dot-free. -/
theorem splitAtFirstDot_append (b c : QName) (hb : dotFree b = true) :
    splitAtFirstDot (b ++ '.' :: c) = some (b, c) := by
  induction b with
  | nil => simp [splitAtFirstDot]
  | cons x xs ih =>
    have hx : ¬ x = '.' := by
      intro h
      subst h
      simp [dotFree, List.contains_cons] at hb
    have hxs : dotFree xs = true := by
      simp [dotFree, List.contains_cons] at hb ⊢
      exact fun h => hb.2 h
    simp [splitAtFirstDot, hx, ih hxs]

/-- A successful first-dot split decomposes the string and the part before
the dot is dot-free. -/
theorem splitAtFirstDot_eq_some (s b c : QName)
    (h : splitAtFirstDot s = some (b, c)) :
    s = b ++ '.' :: c ∧ dotFree b = true := by
  induction s generalizing b c with
  | nil => simp [splitAtFirstDot] at h
  | cons x xs ih =>
    by_cases hx : x = '.'
    · subst hx
      simp [splitAtFirstDot] at h
      obtain ⟨hb, hc⟩ := h
      subst hb; subst hc
      exact ⟨rfl, by simp [dotFree]⟩
    · simp [splitAtFirstDot, hx] at h
      cases hsplit : splitAtFirstDot xs with
      | none => rw [hsplit] at h; simp at h
      | some p =>
        obtain ⟨b', a'⟩ := p
        rw [hsplit] at h
        simp at h
        obtain ⟨hb, hc⟩ := h
        obtain ⟨hxs, hbf⟩ := ih b' a' hsplit
        subst hc
        constructor
        · rw [← hb]
          simp [hxs]
        · rw [← hb]
          simp [dotFree, List.contains_cons] at hbf ⊢
          exact ⟨fun h => hx h.symm, fun hmem => hbf hmem⟩

/-- Characterisation of the tail matcher: it succeeds exactly on strings
of the shape dot-free run, dot, `pat`-matching remainder. -/
theorem matchTail_iff (pat : QName → Bool) (r : QName) :
    matchTail pat r = true ↔
      ∃ b c, r = b ++ '.' :: c ∧ dotFree b = true ∧ pat c = true := by
  constructor
  · intro h
    unfold matchTail at h
    cases hsplit : splitAtFirstDot r with
    | none => rw [hsplit] at h; simp at h
    | some p =>
      obtain ⟨b, c⟩ := p
      rw [hsplit] at h
      simp at h
      obtain ⟨hr, hbf⟩ := splitAtFirstDot_eq_some r b c hsplit
      exact ⟨b, c, hr, hbf, h⟩
  · rintro ⟨b, c, hr, hbf, hpat⟩
    subst hr
    unfold matchTail
    rw [splitAtFirstDot_append b c hbf]
    exact hpat

/-- Characterisation of the unanchored search: it succeeds exactly when
the name decomposes as anything, then the literal `features.`, then a
dot-free run, a dot, and a `pat`-matching tail reaching the end. -/
theorem searchFeaturesPat_iff (pat : QName → Bool) (s : QName) :
    searchFeaturesPat pat s = true ↔
      ∃ a b c, s = a ++ featAnchor ++ b ++ '.' :: c ∧
        dotFree b = true ∧ pat c = true := by
  unfold searchFeaturesPat
  rw [List.any_eq_true]
  constructor
  · rintro ⟨t, ht, hcond⟩
    rw [List.mem_tails] at ht
    obtain ⟨a, ha⟩ := ht
    rw [Bool.and_eq_true] at hcond
    obtain ⟨hpre, htail⟩ := hcond
    rw [ List.isPrefixOf_iff_prefix] at hpre
    obtain ⟨r, hr⟩ := hpre
    have hdrop : t.drop featAnchor.length = r := by
      rw [← hr, List.drop_left]
    rw [hdrop] at htail
    rw [matchTail_iff] at htail
    obtain ⟨b, c, hrbc, hbf, hpat⟩ := htail
    refine ⟨a, b, c, ?_, hbf, hpat⟩
    rw [← ha, ← hr, hrbc]
    simp
  · rintro ⟨a, b, c, hs, hbf, hpat⟩
    refine ⟨featAnchor ++ b ++ '.' :: c, ?_, ?_⟩
    · rw [List.mem_tails, hs]
      exact ⟨a, by simp⟩
    · rw [Bool.and_eq_true]
      constructor
      · rw [ List.isPrefixOf_iff_prefix]
        exact ⟨b ++ '.' :: c, by simp⟩
      · have : (featAnchor ++ b ++ '.' :: c).drop featAnchor.length
            = b ++ '.' :: c := by
          rw [List.append_assoc, List.drop_left]
        rw [this, matchTail_iff]
        exact ⟨b, c, rfl, hbf, hpat⟩

/-- Membership in a scan result: a name is returned exactly when some
walked entry bears that name, its kind flag differs from `modules_only`,
and the regex search succeeds on the name. -/
theorem mem_get_features_packages (packages : List PkgEntry)
    (pat : QName → Bool) (mo : Bool) (x : QName) :
    x ∈ get_features_packages packages pat mo ↔
      ∃ e, e ∈ packages ∧ e.modName = x ∧ (e.isPkg != mo) = true ∧
        searchFeaturesPat pat x = true := by
  unfold get_features_packages
  by_cases hlen : 0 < packages.length
  · simp only [hlen, if_true, List.mem_map, List.mem_filter]
    constructor
    · rintro ⟨e, ⟨hmem, hcond⟩, hname⟩
      rw [Bool.and_eq_true] at hcond
      exact ⟨e, hmem, hname, hcond.1, hname ▸ hcond.2⟩
    · rintro ⟨e, hmem, hname, hflag, hsearch⟩
      exact ⟨e, ⟨hmem, by rw [Bool.and_eq_true]; exact ⟨hflag, hname ▸ hsearch⟩⟩, hname⟩
  · simp only [hlen, if_false]
    simp only [List.length_pos] at hlen
    push_neg at hlen
    subst hlen
    simp

/-- Modelled from the spec's words (claim C2): the anchored structural
constraint `^<root_package.name>\.[^.]+\.<target_pattern>$` — the root
package's own name, exactly one nonempty dot-free feature segment, and
the target pattern reaching the end of the qualified name. -/
def specStructural (rootName : QName) (pat : QName → Bool) (s : QName) : Bool :=
  (rootName ++ ['.']).isPrefixOf s &&
    (match splitAtFirstDot (s.drop (rootName.length + 1)) with
     | none => false
     | some (seg, c) => !seg.isEmpty && pat c)

/-- Characterisation of the regex fragment `models.[^\.]*` as a
whole-string matcher: `models`, then any one character, then a dot-free
run. -/
theorem patModels_iff (c : QName) :
    patModels c = true ↔
      ∃ ch rest, c = ("models".toList) ++ ch :: rest ∧ dotFree rest = true := by
  unfold patModels
  rw [Bool.and_eq_true]
  constructor
  · rintro ⟨hpre, htail⟩
    rw [ List.isPrefixOf_iff_prefix] at hpre
    obtain ⟨r, hr⟩ := hpre
    have h6 : ("models".toList : QName).length = 6 := by decide
    have hdrop : c.drop 6 = r := by
      rw [← hr, ← h6, List.drop_left]
    rw [hdrop] at htail
    cases r with
    | nil => simp at htail
    | cons ch rest =>
      simp at htail
      exact ⟨ch, rest, hr.symm, htail⟩
  · rintro ⟨ch, rest, hc, hdf⟩
    subst hc
    constructor
    · rw [ List.isPrefixOf_iff_prefix]
      exact ⟨ch :: rest, rfl⟩
    · have h6 : ("models".toList : QName).length = 6 := by decide
      have : ("models".toList ++ ch :: rest).drop 6 = ch :: rest := by
        rw [← h6, List.drop_left]
      rw [this]
      exact hdf

/-- Split a qualified name on every dot into its segments. -/
def splitDots : QName → List QName
  | [] => [[]]
  | c :: cs =>
    if c = '.' then [] :: splitDots cs
    else
      match splitDots cs with
      | [] => [[c]]
      | h :: t => (c :: h) :: t

/-- Modelled from the spec's words (claim C4): a qualified name of the
exact shape `features.<feature>.models.<anything>` — four dot-separated
segments, the first being `features` and the third `models`. -/
def isModelsForm (s : QName) : Bool :=
  match splitDots s with
  | [a, _, c, _] => a == ("features".toList) && c == ("models".toList)
  | _ => false

/-- C2: the claim fails on the code.  With a features root named `feats`,
the module `feats.billing.models.invoice` is a matching leaf at exactly
one feature-nesting level for the anchored pattern of the spec, yet the
scan returns nothing: the source regex hard-codes the literal segment
`features` instead of the root package's name. -/
theorem C2_counterexample :
    specStructural ("feats".toList) patModels ("feats.billing.models.invoice".toList) = true ∧
    get_features_packages [PkgEntry.mk ("feats.billing.models.invoice".toList) false]
        patModels true = [] := by
  decide

/-- C2 amended: a qualified name is returned by `get_features_packages`
iff some walked entry bears that name, its package flag differs from
`modules_only`, and an unanchored search of
`features\.[^\.]*\.<target_pattern>$` succeeds on the name — the literal
segment `features` (not the root package's name) anchors the context and
only the end of the name is anchored, so a matching one-level leaf under
a root without a literal `features` segment is not returned, while an
arbitrarily deep entry is returned whenever a later `features` segment
supplies the context. -/
theorem C2_amended (packages : List PkgEntry) (pat : QName → Bool)
    (mo : Bool) (x : QName) :
    x ∈ get_features_packages packages pat mo ↔
      ∃ e, e ∈ packages ∧ e.modName = x ∧ (e.isPkg != mo) = true ∧
        ∃ a b c, x = a ++ featAnchor ++ b ++ '.' :: c ∧
          dotFree b = true ∧ pat c = true := by
  rw [mem_get_features_packages]
  constructor
  · rintro ⟨e, h1, h2, h3, h4⟩
    exact ⟨e, h1, h2, h3, (searchFeaturesPat_iff pat x).mp h4⟩
  · rintro ⟨e, h1, h2, h3, h4⟩
    exact ⟨e, h1, h2, h3, (searchFeaturesPat_iff pat x).mpr h4⟩

/-- C4: the claim fails on the code.  The scan pattern `models.[^\.]*`
contains an unescaped dot, so the single-segment leaf
`features.billing.modelsextra` — which is not of the form
`features.<feature>.models.<anything>` — is accepted as a model-module
candidate. -/
theorem C4_counterexample :
    ("features.billing.modelsextra".toList) ∈
      get_features_packages [PkgEntry.mk ("features.billing.modelsextra".toList) false]
        patModels true ∧
    isModelsForm ("features.billing.modelsextra".toList) = false := by
  decide

/-- C4 amended: the models scan accepts exactly the names ending, after a
`features.<dot-free>.` context somewhere in the name, with `models`
followed by one arbitrary character (the unescaped dot of the pattern
`models.[^\.]*`) and a dot-free run; this includes every
`features.<feature>.models.<leaf>` name but also single-segment leaves
such as `features.<feature>.models<char><rest>`. -/
theorem C4_amended (packages : List PkgEntry) (x : QName) :
    x ∈ get_features_packages packages patModels true ↔
      ∃ e, e ∈ packages ∧ e.modName = x ∧ e.isPkg = false ∧
        ∃ a b ch rest,
          x = a ++ featAnchor ++ b ++ '.' :: ("models".toList ++ ch :: rest) ∧
          dotFree b = true ∧ dotFree rest = true := by
  rw [mem_get_features_packages]
  constructor
  · rintro ⟨e, h1, h2, h3, h4⟩
    have hflag : e.isPkg = false := by
      cases he : e.isPkg
      · rfl
      · rw [he] at h3; simp at h3
    obtain ⟨a, b, c, hx, hbf, hpat⟩ := (searchFeaturesPat_iff patModels x).mp h4
    obtain ⟨ch, rest, hc, hrf⟩ := (patModels_iff c).mp hpat
    subst hc
    exact ⟨e, h1, h2, hflag, a, b, ch, rest, hx, hbf, hrf⟩
  · rintro ⟨e, h1, h2, hflag, a, b, ch, rest, hx, hbf, hrf⟩
    refine ⟨e, h1, h2, by rw [hflag]; rfl, ?_⟩
    rw [searchFeaturesPat_iff]
    refine ⟨a, b, ("models".toList) ++ ch :: rest, hx, hbf, ?_⟩
    rw [patModels_iff]
    exact ⟨ch, rest, rfl, hrf⟩

/-- C7: for a fixed walk result in which a qualified name determines its
package flag (as in any single filesystem tree state), no name is
returned both by the scan with `modules_only = true` and by the scan with
`modules_only = false`: the kind filter `is_pkg != modules_only` sends
every entry to at most one of the two calls. -/
theorem C7_partition (packages : List PkgEntry) (pat : QName → Bool) (x : QName)
    (hcons : ∀ e₁, e₁ ∈ packages → ∀ e₂, e₂ ∈ packages →
      e₁.modName = e₂.modName → e₁.isPkg = e₂.isPkg)
    (h1 : x ∈ get_features_packages packages pat true) :
    x ∉ get_features_packages packages pat false := by
  intro h2
  rw [mem_get_features_packages] at h1 h2
  obtain ⟨e₁, he₁, hn₁, hf₁, _⟩ := h1
  obtain ⟨e₂, he₂, hn₂, hf₂, _⟩ := h2
  have heq : e₁.isPkg = e₂.isPkg := hcons e₁ he₁ e₂ he₂ (hn₁.trans hn₂.symm)
  cases hp₁ : e₁.isPkg <;> cases hp₂ : e₂.isPkg <;>
    rw [hp₁] at hf₁ heq <;> rw [hp₂] at hf₂ heq <;> simp_all

/-- Witness for C7 at a concrete walk result: the leaf entry
`features.billing.routes` is returned by the modules-only call and,
by `C7_partition`, not by the packages-only call. -/
theorem C7_partition_witness :
    ("features.billing.routes".toList) ∈
      get_features_packages [PkgEntry.mk ("features.billing.routes".toList) false]
        patRoutes true ∧
    ("features.billing.routes".toList) ∉
      get_features_packages [PkgEntry.mk ("features.billing.routes".toList) false]
        patRoutes false :=
  ⟨by decide,
    C7_partition [PkgEntry.mk ("features.billing.routes".toList) false] patRoutes
      ("features.billing.routes".toList)
      (by
        intro e₁ h₁ e₂ h₂ _
        simp only [List.mem_singleton] at h₁ h₂
        rw [h₁, h₂])
      (by decide)⟩

/-- Python exception kinds relevant to the two collectors.
`unboundLocalError` models the exception raised when a local variable is
referenced before assignment (a subclass of `NameError`). -/
inductive PyErr where
  | importError : QName → PyErr
  | attributeError : QName → PyErr
  | nameError : QName → PyErr
  | syntaxError : QName → PyErr
  | unboundLocalError : PyErr
deriving DecidableEq

/-- The exception filter of the `except (ImportError, AttributeError)`
clauses in both collectors: exactly these two kinds are caught. -/
def caught : PyErr → Bool
  | PyErr.importError _ => true
  | PyErr.attributeError _ => true
  | _ => false

/-- One operator-visible report (a `print` call) emitted by the
collectors.  `couldNotLoadModel` carries the module named in the message
(the value of the `model_module` variable), the features root name and
the exception; `couldNotLoadRouter` carries the loop variable
`module_name`. -/
inductive LogMsg where
  | noModels : QName → LogMsg
  | couldNotLoadModel : QName → QName → PyErr → LogMsg
  | noRoutes : QName → LogMsg
  | includedRouter : QName → LogMsg
  | couldNotLoadRouter : QName → QName → PyErr → LogMsg
deriving DecidableEq

/-- One attribute of an imported models module, as seen by the
inspection in `get_sql_models`: whether `isclass` holds, the two
`issubclass` capabilities, and the `__tablename__` attribute (`none`
when `hasattr` is false, `some s` when present with value `s`). -/
structure TableAttr where
  isClass : Bool
  subSQLModel : Bool
  subDeclarativeBase : Bool
  tablename : Option QName
deriving DecidableEq

/-- The qualifying condition of the source: `isclass(model_class) and
(issubclass(model_class, SQLModel) or issubclass(model_class,
DeclarativeBase))` followed by `hasattr(model_class, '__tablename__')` —
presence of the attribute, its value unexamined. -/
def isTableModel (a : TableAttr) : Bool :=
  a.isClass && (a.subSQLModel || a.subDeclarativeBase) && a.tablename.isSome

/-- Modelled from the spec's words (claim C3): the same condition but
requiring a non-empty table-name annotation. -/
def isTableModelSpec (a : TableAttr) : Bool :=
  a.isClass && (a.subSQLModel || a.subDeclarativeBase) &&
    (match a.tablename with
     | some s => !s.isEmpty
     | none => false)

instance {ε α : Type} [DecidableEq ε] [DecidableEq α] : DecidableEq (Except ε α) :=
  fun x y =>
    match x, y with
    | Except.ok a, Except.ok b =>
        decidable_of_iff (a = b) ⟨fun h => by rw [h], fun h => by injection h⟩
    | Except.error a, Except.error b =>
        decidable_of_iff (a = b) ⟨fun h => by rw [h], fun h => by injection h⟩
    | Except.ok _, Except.error _ => isFalse (fun h => by injection h)
    | Except.error _, Except.ok _ => isFalse (fun h => by injection h)

/-- A matched models module together with its dynamic-import outcome:
either the list of its attributes or the exception the import raised. -/
structure ModelsModule where
  name : QName
  importResult : Except PyErr (List TableAttr)
deriving DecidableEq

/-- Python `set.add` on a set represented as a duplicate-free list. -/
def addToSet (x : QName) (s : List QName) : List QName :=
  if x ∈ s then s else s ++ [x]

/-- The inner `for attribute_name in dir(model_module)` loop of
`get_sql_models`: each qualifying attribute adds the module's name to
the accumulated set. -/
def scanModelAttrs (modName : QName) (attrs : List TableAttr)
    (models : List QName) : List QName :=
  attrs.foldl (fun ms a => if isTableModel a then addToSet modName ms else ms) models

/-- The `for model_name in models_modules` loop of `get_sql_models`.
`lastMod` is the current value of the Python variable `model_module`:
`none` before the first successful import.  A caught exception
(`ImportError` or `AttributeError`) triggers the report `print`, which
references `model_module` — raising `UnboundLocalError` when that
variable is still unassigned, and otherwise naming the previously
imported module; the loop then continues.  Any other exception
propagates. -/
def get_sql_models_loop (root : QName) :
    List ModelsModule → Option QName → List QName → List LogMsg →
    Except PyErr (List QName × List LogMsg)
  | [], _, models, lg => Except.ok (models, lg)
  | m :: rest, lastMod, models, lg =>
    match m.importResult with
    | Except.ok attrs =>
        get_sql_models_loop root rest (some m.name)
          (scanModelAttrs m.name attrs models) lg
    | Except.error e =>
        if caught e then
          match lastMod with
          | none => Except.error PyErr.unboundLocalError
          | some prev =>
              get_sql_models_loop root rest lastMod models
                (lg ++ [LogMsg.couldNotLoadModel prev root e])
        else Except.error e

/-- Model of `get_sql_models` from
src/fastfeatures/core/models_discoverer.py: scan with pattern
`models.[^\.]*` and `modules_only = True`, report when nothing matched,
otherwise import and inspect each candidate via the import oracle. -/
def get_sql_models (root : QName) (packages : List PkgEntry)
    (oracle : QName → Except PyErr (List TableAttr)) :
    Except PyErr (List QName × List LogMsg) :=
  let models_modules := get_features_packages packages patModels true
  if models_modules.length = 0 then Except.ok ([], [LogMsg.noModels root])
  else
    get_sql_models_loop root
      (models_modules.map (fun n => ModelsModule.mk n (oracle n))) none [] []

/-- Membership after a set add. -/
theorem addToSet_mem (x y : QName) (s : List QName) :
    x ∈ addToSet y s ↔ x ∈ s ∨ x = y := by
  unfold addToSet
  by_cases h : y ∈ s
  · simp only [h, if_true]
    constructor
    · exact fun hx => Or.inl hx
    · rintro (hx | hx)
      · exact hx
      · rw [hx]; exact h
  · simp [h]

/-- A set add preserves freedom from duplicates. -/
theorem addToSet_nodup (y : QName) (s : List QName) (h : s.Nodup) :
    (addToSet y s).Nodup := by
  unfold addToSet
  by_cases hy : y ∈ s
  · simp [hy, h]
  · simp [hy, List.nodup_append, h]

/-- Adding an element already present changes nothing. -/
theorem addToSet_idem (y : QName) (s : List QName) :
    addToSet y (addToSet y s) = addToSet y s := by
  unfold addToSet
  by_cases h : y ∈ s
  · simp [h]
  · simp [h]

/-- The attribute loop either adds the module name once (when some
attribute qualifies) or leaves the set unchanged. -/
theorem scanModelAttrs_eq (modName : QName) (attrs : List TableAttr)
    (models : List QName) :
    scanModelAttrs modName attrs models =
      if attrs.any isTableModel then addToSet modName models else models := by
  induction attrs generalizing models with
  | nil => simp [scanModelAttrs]
  | cons a rest ih =>
    by_cases hA : isTableModel a = true
    · have h1 : scanModelAttrs modName (a :: rest) models
          = scanModelAttrs modName rest (addToSet modName models) := by
        simp [scanModelAttrs, hA]
      rw [h1, ih]
      simp only [List.any_cons, hA, Bool.true_or, if_true]
      by_cases hR : rest.any isTableModel = true
      · simp [hR, addToSet_idem]
      · simp [hR]
    · have h1 : scanModelAttrs modName (a :: rest) models
          = scanModelAttrs modName rest models := by
        simp [scanModelAttrs, hA]
      rw [h1, ih]
      simp [List.any_cons, hA]

/-- Invariant of the models loop on a run that returns normally: the
returned collection extends the accumulator exactly with the names of
the modules that imported successfully and contain a qualifying
attribute, and it stays duplicate-free. -/
theorem get_sql_models_loop_ok (root : QName) (ms : List ModelsModule)
    (lastMod : Option QName) (acc : List QName) (lg : List LogMsg)
    (res : List QName) (lg' : List LogMsg)
    (h : get_sql_models_loop root ms lastMod acc lg = Except.ok (res, lg')) :
    (∀ x, x ∈ res ↔ x ∈ acc ∨ ∃ m, m ∈ ms ∧ m.name = x ∧
      ∃ attrs, m.importResult = Except.ok attrs ∧ attrs.any isTableModel = true)
    ∧ (acc.Nodup → res.Nodup) := by
  induction ms generalizing lastMod acc lg with
  | nil =>
    unfold get_sql_models_loop at h
    injection h with h
    injection h with h1 h2
    subst h1
    constructor
    · intro x
      simp
    · exact fun hn => hn
  | cons m rest ih =>
    unfold get_sql_models_loop at h
    cases him : m.importResult with
    | ok attrs =>
      rw [him] at h
      simp only [] at h
      obtain ⟨hmem, hnd⟩ := ih (some m.name) (scanModelAttrs m.name attrs acc) lg h
      constructor
      · intro x
        rw [hmem x, scanModelAttrs_eq]
        by_cases hq : attrs.any isTableModel = true
        · simp only [hq, if_true, addToSet_mem]
          constructor
          · rintro ((hx | hx) | ⟨m', hm', hn', hrest⟩)
            · exact Or.inl hx
            · exact Or.inr ⟨m, List.mem_cons_self m rest, hx.symm, attrs, him, hq⟩
            · exact Or.inr ⟨m', List.mem_cons_of_mem m hm', hn', hrest⟩
          · rintro (hx | ⟨m', hm', hn', attrs', him', hq'⟩)
            · exact Or.inl (Or.inl hx)
            · rcases List.mem_cons.mp hm' with hm'' | hm''
              · subst hm''
                exact Or.inl (Or.inr hn'.symm)
              · exact Or.inr ⟨m', hm'', hn', attrs', him', hq'⟩
        · simp only [hq, if_false]
          constructor
          · rintro (hx | ⟨m', hm', hn', hrest⟩)
            · exact Or.inl hx
            · exact Or.inr ⟨m', List.mem_cons_of_mem m hm', hn', hrest⟩
          · rintro (hx | ⟨m', hm', hn', attrs', him', hq'⟩)
            · exact Or.inl hx
            · rcases List.mem_cons.mp hm' with hm'' | hm''
              · subst hm''
                rw [him] at him'
                injection him' with him''
                subst him''
                exact absurd hq' hq
              · exact Or.inr ⟨m', hm'', hn', attrs', him', hq'⟩
      · intro hacc
        apply hnd
        rw [scanModelAttrs_eq]
        by_cases hq : attrs.any isTableModel = true
        · simp only [hq, if_true]
          exact addToSet_nodup _ _ hacc
        · simp only [hq, if_false]
          exact hacc
    | error e =>
      rw [him] at h
      simp only [] at h
      by_cases hc : caught e = true
      · rw [if_pos hc] at h
        cases hlast : lastMod with
        | none =>
          rw [hlast] at h
          simp at h
        | some prev =>
          rw [hlast] at h
          obtain ⟨hmem, hnd⟩ := ih (some prev) acc
            (lg ++ [LogMsg.couldNotLoadModel prev root e]) h
          constructor
          · intro x
            rw [hmem x]
            constructor
            · rintro (hx | ⟨m', hm', hn', hrest⟩)
              · exact Or.inl hx
              · exact Or.inr ⟨m', List.mem_cons_of_mem m hm', hn', hrest⟩
            · rintro (hx | ⟨m', hm', hn', attrs', him', hq'⟩)
              · exact Or.inl hx
              · rcases List.mem_cons.mp hm' with hm'' | hm''
                · subst hm''
                  rw [him] at him'
                  exact absurd him' (by intro hcon; injection hcon)
                · exact Or.inr ⟨m', hm'', hn', attrs', him', hq'⟩
          · exact hnd
      · rw [if_neg hc] at h
        simp at h

/-- C3: the claim fails on the code.  A class that is a `SQLModel`
subclass and carries an empty `__tablename__` (present but empty, so not
a non-empty annotation) still qualifies: the source checks only
`hasattr(model_class, '__tablename__')`, and such an attribute causes
the module's name to be added. -/
theorem C3_counterexample :
    isTableModel (TableAttr.mk true true false (some [])) = true ∧
    isTableModelSpec (TableAttr.mk true true false (some [])) = false ∧
    get_sql_models_loop ("features".toList)
        [ModelsModule.mk ("features.billing.models.invoice".toList)
          (Except.ok [TableAttr.mk true true false (some [])])] none [] []
      = Except.ok ([("features.billing.models.invoice".toList)], []) := by
  decide

/-- C3 amended: within a successfully imported module an attribute
qualifies iff it is a class, a subclass of the SQLModel table base or of
the declarative base, and it has a table-name attribute — presence via
`hasattr`, the value (even empty) unexamined — and the module's name is
added exactly when some attribute so qualifies. -/
theorem C3_amended (root n : QName) (attrs : List TableAttr) :
    get_sql_models_loop root [ModelsModule.mk n (Except.ok attrs)] none [] []
      = Except.ok (if attrs.any isTableModel then [n] else [], []) ∧
    (attrs.any isTableModel = true ↔
      ∃ a, a ∈ attrs ∧ a.isClass = true ∧
        (a.subSQLModel = true ∨ a.subDeclarativeBase = true) ∧
        a.tablename.isSome = true) := by
  constructor
  · show get_sql_models_loop root [ModelsModule.mk n (Except.ok attrs)] none [] []
      = Except.ok (if attrs.any isTableModel then [n] else [], [])
    unfold get_sql_models_loop
    unfold get_sql_models_loop
    rw [scanModelAttrs_eq]
    by_cases hq : attrs.any isTableModel = true
    · simp [hq, addToSet]
    · simp [hq]
  · rw [List.any_eq_true]
    constructor
    · rintro ⟨a, ha, hq⟩
      unfold isTableModel at hq
      simp only [Bool.and_eq_true, Bool.or_eq_true] at hq
      exact ⟨a, ha, hq.1.1, hq.1.2, hq.2⟩
    · rintro ⟨a, ha, h1, h2, h3⟩
      refine ⟨a, ha, ?_⟩
      unfold isTableModel
      simp only [Bool.and_eq_true, Bool.or_eq_true]
      exact ⟨⟨h1, h2⟩, h3⟩

/-- In a duplicate-free list every member occurs exactly once. -/
theorem count_one_of_nodup_mem (x : QName) (l : List QName)
    (hn : l.Nodup) (hx : x ∈ l) : l.count x = 1 := by
  induction l with
  | nil => simp at hx
  | cons y ys ih =>
    rw [List.count_cons]
    rcases List.mem_cons.mp hx with h | h
    · subst h
      have hy : x ∉ ys := (List.nodup_cons.mp hn).1
      have hc : ys.count x = 0 := List.count_eq_zero.mpr hy
      simp [hc]
    · have hn' := (List.nodup_cons.mp hn).2
      have hy : y ∉ ys := (List.nodup_cons.mp hn).1
      have hne : (y == x) = false := by
        rw [beq_eq_false_iff_ne]
        intro hxy
        subst hxy
        exact hy h
      rw [hne]
      simpa using ih hn' h

/-- C5: on a run of the models loop that returns normally, a module name
is in the returned collection iff some scanned module bears that name,
imported successfully and contains at least one qualifying attribute;
and every name occurs exactly once regardless of how many attributes
qualified. -/
theorem C5_membership (root : QName) (ms : List ModelsModule)
    (res : List QName) (lg : List LogMsg)
    (h : get_sql_models_loop root ms none [] [] = Except.ok (res, lg)) :
    (∀ x, x ∈ res ↔ ∃ m, m ∈ ms ∧ m.name = x ∧
      ∃ attrs, m.importResult = Except.ok attrs ∧ attrs.any isTableModel = true)
    ∧ (∀ x, x ∈ res → res.count x = 1) := by
  obtain ⟨hmem, hnd⟩ := get_sql_models_loop_ok root ms none [] [] res lg h
  have hnodup : res.Nodup := hnd List.nodup_nil
  constructor
  · intro x
    rw [hmem x]
    simp
  · intro x hx
    exact count_one_of_nodup_mem x res hnodup hx

/-- Witness for C5 at a concrete run: one module with two qualifying
classes contributes its name exactly once. -/
theorem C5_membership_witness :
    get_sql_models_loop ("features".toList)
        [ModelsModule.mk ("features.billing.models.invoice".toList)
          (Except.ok [TableAttr.mk true true false (some ("invoice".toList)),
            TableAttr.mk true false true (some ("invoice_line".toList))])] none [] []
      = Except.ok ([("features.billing.models.invoice".toList)], []) ∧
    ((∀ x, x ∈ [("features.billing.models.invoice".toList)] ↔
      ∃ m, m ∈ [ModelsModule.mk ("features.billing.models.invoice".toList)
          (Except.ok [TableAttr.mk true true false (some ("invoice".toList)),
            TableAttr.mk true false true (some ("invoice_line".toList))])] ∧
        m.name = x ∧ ∃ attrs, m.importResult = Except.ok attrs ∧
          attrs.any isTableModel = true)
    ∧ (∀ x, x ∈ [("features.billing.models.invoice".toList)] →
        List.count x [("features.billing.models.invoice".toList)] = 1)) :=
  ⟨by decide,
    C5_membership ("features".toList)
      [ModelsModule.mk ("features.billing.models.invoice".toList)
        (Except.ok [TableAttr.mk true true false (some ("invoice".toList)),
          TableAttr.mk true false true (some ("invoice_line".toList))])]
      [("features.billing.models.invoice".toList)] [] (by decide)⟩

/-- C8: the code contradicts the claim in `get_sql_models`.  When the
first matched models module fails to import with a caught exception, the
report `print` references the variable `model_module`, which has never
been assigned: the report itself raises `UnboundLocalError` and aborts
the scan.  When a previous candidate had imported successfully, the run
completes but the emitted report names that previous module
(`features.ok.models.good`) instead of the offending one
(`features.broken.models.tbl`).  The routes collector is unaffected; it
prints the loop variable `module_name`. -/
theorem C8_code_bug :
    get_sql_models ("features".toList)
        [PkgEntry.mk ("features.broken.models.tbl".toList) false]
        (fun _ => Except.error (PyErr.importError ("missing_dep".toList)))
      = Except.error PyErr.unboundLocalError ∧
    get_sql_models ("features".toList)
        [PkgEntry.mk ("features.ok.models.good".toList) false,
          PkgEntry.mk ("features.broken.models.tbl".toList) false]
        (fun n =>
          if n = ("features.ok.models.good".toList)
          then Except.ok [TableAttr.mk true true false (some ("good".toList))]
          else Except.error (PyErr.importError ("missing_dep".toList)))
      = Except.ok ([("features.ok.models.good".toList)],
          [LogMsg.couldNotLoadModel ("features.ok.models.good".toList)
            ("features".toList) (PyErr.importError ("missing_dep".toList))]) := by
  decide

/-- One attribute of an imported routes module, as seen by the inspection
in `add_features_routes`: whether `isinstance(attribute, APIRouter)`
holds, and an identifier for the router object itself. -/
structure RouteAttr where
  isAPIRouter : Bool
  routerId : Nat
deriving DecidableEq

/-- A matched routes module together with its dynamic-import outcome.
A successful import yields the `dir` listing; each listed attribute is
fetched with a bare `getattr`, which can itself raise, so every entry is
an outcome. -/
structure RoutesModule where
  name : QName
  importResult : Except PyErr (List (Except PyErr RouteAttr))
deriving DecidableEq

/-- Result of a run of the routes collector: the application's router
table (`include_router` appends to it), the reports printed, and the
exception that escaped the function, if any. -/
structure RoutesResult where
  appRouters : List Nat
  logs : List LogMsg
  err : Option PyErr
deriving DecidableEq

/-- The inner `for attribute_name in dir(router_module)` loop of
`add_features_routes`: every `APIRouter` attribute is included into the
application (and reported); a raising `getattr` stops the enumeration
and hands the exception to the surrounding `try`. -/
def routeAttrsLoop (modName : QName) :
    List (Except PyErr RouteAttr) → List Nat → List LogMsg →
    List Nat × List LogMsg × Option PyErr
  | [], inc, lg => (inc, lg, none)
  | Except.ok a :: rest, inc, lg =>
      if a.isAPIRouter then
        routeAttrsLoop modName rest (inc ++ [a.routerId])
          (lg ++ [LogMsg.includedRouter modName])
      else routeAttrsLoop modName rest inc lg
  | Except.error e :: _, inc, lg => (inc, lg, some e)

/-- The `for module_name in routes_modules` loop of
`add_features_routes`: a caught exception (`ImportError` or
`AttributeError`), whether raised by the import or by the attribute
enumeration, is reported with the loop variable `module_name` and the
loop continues with the next candidate; any other exception escapes,
leaving the application with the routers already included. -/
def add_features_routes_loop (root : QName) :
    List RoutesModule → List Nat → List LogMsg → RoutesResult
  | [], inc, lg => RoutesResult.mk inc lg none
  | m :: rest, inc, lg =>
    match m.importResult with
    | Except.error e =>
        if caught e then
          add_features_routes_loop root rest inc
            (lg ++ [LogMsg.couldNotLoadRouter m.name root e])
        else RoutesResult.mk inc lg (some e)
    | Except.ok attrs =>
        match routeAttrsLoop m.name attrs inc lg with
        | (inc', lg', none) => add_features_routes_loop root rest inc' lg'
        | (inc', lg', some e) =>
            if caught e then
              add_features_routes_loop root rest inc'
                (lg' ++ [LogMsg.couldNotLoadRouter m.name root e])
            else RoutesResult.mk inc' lg' (some e)

/-- Model of `add_features_routes` from
src/fastfeatures/core/routes_discoverer.py: scan with the exact pattern
`routes` and `modules_only = True`, report when nothing matched,
otherwise import each candidate and include its routers into the
application `app`. -/
def add_features_routes (root : QName) (packages : List PkgEntry)
    (oracle : QName → Except PyErr (List (Except PyErr RouteAttr)))
    (app : List Nat) : RoutesResult :=
  let routes_modules := get_features_packages packages patRoutes true
  if routes_modules.length = 0 then RoutesResult.mk app [LogMsg.noRoutes root] none
  else
    add_features_routes_loop root
      (routes_modules.map (fun n => RoutesModule.mk n (oracle n))) app []

/-- The attribute loop appends to the application and to the log a
contribution that does not depend on their prior contents. -/
theorem routeAttrsLoop_delta (n : QName) (attrs : List (Except PyErr RouteAttr)) :
    ∃ dR dLg oe, ∀ inc lg,
      routeAttrsLoop n attrs inc lg = (inc ++ dR, lg ++ dLg, oe) := by
  induction attrs with
  | nil => exact ⟨[], [], none, fun inc lg => by simp [routeAttrsLoop]⟩
  | cons x rest ih =>
    obtain ⟨dR, dLg, oe, hih⟩ := ih
    cases x with
    | ok a =>
      by_cases hA : a.isAPIRouter = true
      · refine ⟨a.routerId :: dR, LogMsg.includedRouter n :: dLg, oe, fun inc lg => ?_⟩
        simp only [routeAttrsLoop, hA, if_true]
        rw [hih]
        simp
      · refine ⟨dR, dLg, oe, fun inc lg => ?_⟩
        simp only [routeAttrsLoop, hA, if_false]
        exact hih inc lg
    | error e =>
      exact ⟨[], [], some e, fun inc lg => by simp [routeAttrsLoop]⟩

/-- The module loop appends to the application and to the log a
contribution that does not depend on their prior contents. -/
theorem add_features_routes_loop_delta (root : QName) (ms : List RoutesModule) :
    ∃ dR dLg oe, ∀ inc lg,
      add_features_routes_loop root ms inc lg
        = RoutesResult.mk (inc ++ dR) (lg ++ dLg) oe := by
  induction ms with
  | nil => exact ⟨[], [], none, fun inc lg => by simp [add_features_routes_loop]⟩
  | cons m rest ih =>
    obtain ⟨dR, dLg, oe, hih⟩ := ih
    cases him : m.importResult with
    | error e =>
      by_cases hc : caught e = true
      · refine ⟨dR, LogMsg.couldNotLoadRouter m.name root e :: dLg, oe,
          fun inc lg => ?_⟩
        simp only [add_features_routes_loop, him, hc, if_true]
        rw [hih]
        simp
      · refine ⟨[], [], some e, fun inc lg => ?_⟩
        simp only [add_features_routes_loop, him, hc, if_false]
        simp
    | ok attrs =>
      obtain ⟨aR, aLg, aoe, hA⟩ := routeAttrsLoop_delta m.name attrs
      cases aoe with
      | none =>
        refine ⟨aR ++ dR, aLg ++ dLg, oe, fun inc lg => ?_⟩
        simp only [add_features_routes_loop, him]
        rw [hA inc lg]
        simp only []
        rw [hih]
        simp
      | some e =>
        by_cases hc : caught e = true
        · refine ⟨aR ++ dR,
            aLg ++ (LogMsg.couldNotLoadRouter m.name root e :: dLg), oe,
            fun inc lg => ?_⟩
          simp only [add_features_routes_loop, him]
          rw [hA inc lg]
          simp only [hc, if_true]
          rw [hih]
          simp
        · refine ⟨aR, aLg, some e, fun inc lg => ?_⟩
          simp only [add_features_routes_loop, him]
          rw [hA inc lg]
          simp [hc]

/-- When the first half of a batch runs without an escaping exception,
the loop over the whole batch continues into the second half from the
state the first half produced. -/
theorem add_features_routes_loop_append_of (root : QName)
    (xs ys : List RoutesModule) (inc : List Nat) (lg : List LogMsg)
    (h : (add_features_routes_loop root xs inc lg).err = none) :
    add_features_routes_loop root (xs ++ ys) inc lg =
      add_features_routes_loop root ys
        (add_features_routes_loop root xs inc lg).appRouters
        (add_features_routes_loop root xs inc lg).logs := by
  induction xs generalizing inc lg with
  | nil => simp [add_features_routes_loop]
  | cons m xs ih =>
    cases him : m.importResult with
    | error e =>
      by_cases hc : caught e = true
      · have h' : (add_features_routes_loop root xs inc
            (lg ++ [LogMsg.couldNotLoadRouter m.name root e])).err = none := by
          have : add_features_routes_loop root (m :: xs) inc lg
              = add_features_routes_loop root xs inc
                  (lg ++ [LogMsg.couldNotLoadRouter m.name root e]) := by
            simp [add_features_routes_loop, him, hc]
          rw [this] at h
          exact h
        have hstep : add_features_routes_loop root ((m :: xs) ++ ys) inc lg
            = add_features_routes_loop root (xs ++ ys) inc
                (lg ++ [LogMsg.couldNotLoadRouter m.name root e]) := by
          simp [add_features_routes_loop, him, hc]
        have hstep' : add_features_routes_loop root (m :: xs) inc lg
            = add_features_routes_loop root xs inc
                (lg ++ [LogMsg.couldNotLoadRouter m.name root e]) := by
          simp [add_features_routes_loop, him, hc]
        rw [hstep, hstep', ih _ _ h']
      · exfalso
        have : add_features_routes_loop root (m :: xs) inc lg
            = RoutesResult.mk inc lg (some e) := by
          simp [add_features_routes_loop, him, hc]
        rw [this] at h
        simp at h
    | ok attrs =>
      obtain ⟨aR, aLg, aoe, hA⟩ := routeAttrsLoop_delta m.name attrs
      cases aoe with
      | none =>
        have hstep : add_features_routes_loop root ((m :: xs) ++ ys) inc lg
            = add_features_routes_loop root (xs ++ ys) (inc ++ aR) (lg ++ aLg) := by
          simp only [List.cons_append, add_features_routes_loop, him]
          rw [hA inc lg]
          rfl
        have hstep' : add_features_routes_loop root (m :: xs) inc lg
            = add_features_routes_loop root xs (inc ++ aR) (lg ++ aLg) := by
          simp only [add_features_routes_loop, him]
          rw [hA inc lg]
        have h' : (add_features_routes_loop root xs (inc ++ aR) (lg ++ aLg)).err
            = none := by
          rw [hstep'] at h
          exact h
        rw [hstep, hstep', ih _ _ h']
      | some e =>
        by_cases hc : caught e = true
        · have hstep : add_features_routes_loop root ((m :: xs) ++ ys) inc lg
              = add_features_routes_loop root (xs ++ ys) (inc ++ aR)
                  ((lg ++ aLg) ++ [LogMsg.couldNotLoadRouter m.name root e]) := by
            simp only [List.cons_append, add_features_routes_loop, him]
            rw [hA inc lg]
            simp [hc]
          have hstep' : add_features_routes_loop root (m :: xs) inc lg
              = add_features_routes_loop root xs (inc ++ aR)
                  ((lg ++ aLg) ++ [LogMsg.couldNotLoadRouter m.name root e]) := by
            simp only [add_features_routes_loop, him]
            rw [hA inc lg]
            simp [hc]
          have h' : (add_features_routes_loop root xs (inc ++ aR)
              ((lg ++ aLg) ++ [LogMsg.couldNotLoadRouter m.name root e])).err
              = none := by
            rw [hstep'] at h
            exact h
          rw [hstep, hstep', ih _ _ h']
        · exfalso
          have : add_features_routes_loop root (m :: xs) inc lg
              = RoutesResult.mk (inc ++ aR) (lg ++ aLg) (some e) := by
            simp only [add_features_routes_loop, him]
            rw [hA inc lg]
            simp [hc]
          rw [this] at h
          simp at h

/-- Running the attribute loop over attributes that fetch cleanly up to
the first raising fetch: every router seen before the error is included
into the application, then the exception is handed to the `try`. -/
theorem routeAttrsLoop_firstErr (n : QName) (pre : List RouteAttr) (e : PyErr)
    (post : List (Except PyErr RouteAttr)) (inc : List Nat) (lg : List LogMsg) :
    routeAttrsLoop n (pre.map Except.ok ++ Except.error e :: post) inc lg
      = (inc ++ (pre.filter (fun a => a.isAPIRouter)).map (fun a => a.routerId),
          lg ++ (pre.filter (fun a => a.isAPIRouter)).map
            (fun _ => LogMsg.includedRouter n),
          some e) := by
  induction pre generalizing inc lg with
  | nil => simp [routeAttrsLoop]
  | cons a rest ih =>
    by_cases hA : a.isAPIRouter = true
    · simp only [List.map_cons, List.cons_append, routeAttrsLoop, List.append_eq]
      rw [if_pos hA, ih]
      simp [hA]
    · simp only [List.map_cons, List.cons_append, routeAttrsLoop, List.append_eq]
      rw [if_neg hA, ih]
      simp [hA]

/-- C1: the claim fails on the code.  The module
`features.broken.routes` raises `NameError` (an undefined name
referenced at import time); this is not among the caught exception
types, so `add_features_routes` aborts with the error, no failure is
reported, and the router of `features.ok.routes` — registered when the
broken module is absent — is never included. -/
theorem C1_counterexample :
    add_features_routes ("features".toList)
        [PkgEntry.mk ("features.broken.routes".toList) false,
          PkgEntry.mk ("features.ok.routes".toList) false]
        (fun n =>
          if n = ("features.broken.routes".toList)
          then Except.error (PyErr.nameError ("undefined_name".toList))
          else Except.ok [Except.ok (RouteAttr.mk true 7)]) []
      = RoutesResult.mk [] [] (some (PyErr.nameError ("undefined_name".toList))) ∧
    add_features_routes ("features".toList)
        [PkgEntry.mk ("features.ok.routes".toList) false]
        (fun n =>
          if n = ("features.broken.routes".toList)
          then Except.error (PyErr.nameError ("undefined_name".toList))
          else Except.ok [Except.ok (RouteAttr.mk true 7)]) []
      = RoutesResult.mk [7]
          [LogMsg.includedRouter ("features.ok.routes".toList)] none := by
  decide

/-- C1 amended: for every matched routes module whose dynamic import
raises `ImportError` (for example a missing dependency) or
`AttributeError`, `add_features_routes` reports the failure, naming the
module, and continues with the next candidate, so the routers and the
escape status of the batch are exactly those of the batch without the
bad module; import failures of other kinds (`NameError` from an
undefined name, `SyntaxError`) propagate and abort the batch, and the
corresponding report in `get_sql_models` can itself raise (claim C8). -/
theorem C1_amended (root : QName) (ms₁ ms₂ : List RoutesModule)
    (bad : RoutesModule) (e : PyErr) (app : List Nat)
    (hb : bad.importResult = Except.error e) (hc : caught e = true)
    (h1 : (add_features_routes_loop root ms₁ app []).err = none) :
    (add_features_routes_loop root (ms₁ ++ bad :: ms₂) app []).appRouters
      = (add_features_routes_loop root (ms₁ ++ ms₂) app []).appRouters
    ∧ (add_features_routes_loop root (ms₁ ++ bad :: ms₂) app []).err
      = (add_features_routes_loop root (ms₁ ++ ms₂) app []).err
    ∧ LogMsg.couldNotLoadRouter bad.name root e
        ∈ (add_features_routes_loop root (ms₁ ++ bad :: ms₂) app []).logs := by
  have hL := add_features_routes_loop_append_of root ms₁ (bad :: ms₂) app [] h1
  have hR := add_features_routes_loop_append_of root ms₁ ms₂ app [] h1
  set i := (add_features_routes_loop root ms₁ app []).appRouters with hi
  set l := (add_features_routes_loop root ms₁ app []).logs with hl
  have hbad : add_features_routes_loop root (bad :: ms₂) i l
      = add_features_routes_loop root ms₂ i
          (l ++ [LogMsg.couldNotLoadRouter bad.name root e]) := by
    simp [add_features_routes_loop, hb, hc]
  obtain ⟨dR, dLg, oe, hd⟩ := add_features_routes_loop_delta root ms₂
  rw [hL, hbad, hd i (l ++ [LogMsg.couldNotLoadRouter bad.name root e]),
    hR, hd i l]
  refine ⟨rfl, rfl, ?_⟩
  simp

/-- Witness for C1 amended at a concrete batch: with
`features.broken.routes` raising `ImportError` between two healthy
modules, the healthy routers are registered as if the broken module were
absent and the failure is reported. -/
theorem C1_amended_witness :
    (RoutesModule.mk ("features.broken.routes".toList)
        (Except.error (PyErr.importError ("missing_dep".toList)))).importResult
      = Except.error (PyErr.importError ("missing_dep".toList)) ∧
    caught (PyErr.importError ("missing_dep".toList)) = true ∧
    (add_features_routes_loop ("features".toList)
        [RoutesModule.mk ("features.alpha.routes".toList)
          (Except.ok [Except.ok (RouteAttr.mk true 1)])] [] []).err = none ∧
    ((add_features_routes_loop ("features".toList)
        ([RoutesModule.mk ("features.alpha.routes".toList)
            (Except.ok [Except.ok (RouteAttr.mk true 1)])] ++
          RoutesModule.mk ("features.broken.routes".toList)
              (Except.error (PyErr.importError ("missing_dep".toList))) ::
            [RoutesModule.mk ("features.beta.routes".toList)
              (Except.ok [Except.ok (RouteAttr.mk true 2)])]) [] []).appRouters
      = (add_features_routes_loop ("features".toList)
          ([RoutesModule.mk ("features.alpha.routes".toList)
              (Except.ok [Except.ok (RouteAttr.mk true 1)])] ++
            [RoutesModule.mk ("features.beta.routes".toList)
              (Except.ok [Except.ok (RouteAttr.mk true 2)])]) [] []).appRouters
    ∧ (add_features_routes_loop ("features".toList)
        ([RoutesModule.mk ("features.alpha.routes".toList)
            (Except.ok [Except.ok (RouteAttr.mk true 1)])] ++
          RoutesModule.mk ("features.broken.routes".toList)
              (Except.error (PyErr.importError ("missing_dep".toList))) ::
            [RoutesModule.mk ("features.beta.routes".toList)
              (Except.ok [Except.ok (RouteAttr.mk true 2)])]) [] []).err
      = (add_features_routes_loop ("features".toList)
          ([RoutesModule.mk ("features.alpha.routes".toList)
              (Except.ok [Except.ok (RouteAttr.mk true 1)])] ++
            [RoutesModule.mk ("features.beta.routes".toList)
              (Except.ok [Except.ok (RouteAttr.mk true 2)])]) [] []).err
    ∧ LogMsg.couldNotLoadRouter
          (RoutesModule.mk ("features.broken.routes".toList)
            (Except.error (PyErr.importError ("missing_dep".toList)))).name
          ("features".toList) (PyErr.importError ("missing_dep".toList))
        ∈ (add_features_routes_loop ("features".toList)
            ([RoutesModule.mk ("features.alpha.routes".toList)
                (Except.ok [Except.ok (RouteAttr.mk true 1)])] ++
              RoutesModule.mk ("features.broken.routes".toList)
                  (Except.error (PyErr.importError ("missing_dep".toList))) ::
                [RoutesModule.mk ("features.beta.routes".toList)
                  (Except.ok [Except.ok (RouteAttr.mk true 2)])]) [] []).logs) :=
  ⟨by decide, by decide, by decide,
    C1_amended ("features".toList)
      [RoutesModule.mk ("features.alpha.routes".toList)
        (Except.ok [Except.ok (RouteAttr.mk true 1)])]
      [RoutesModule.mk ("features.beta.routes".toList)
        (Except.ok [Except.ok (RouteAttr.mk true 2)])]
      (RoutesModule.mk ("features.broken.routes".toList)
        (Except.error (PyErr.importError ("missing_dep".toList))))
      (PyErr.importError ("missing_dep".toList)) []
      (by decide) (by decide) (by decide)⟩

/-- C9: only `ImportError` and `AttributeError` are caught.  An
exception of any other kind — raised by the import in either collector,
or by the attribute enumeration in the routes collector — escapes the
per-module loop and aborts processing of all remaining candidates,
leaving the application exactly as it was when the exception arose. -/
theorem C9_uncaught_propagates (root : QName)
    (bad : ModelsModule) (rest : List ModelsModule)
    (lastMod : Option QName) (models : List QName) (lg : List LogMsg)
    (badR : RoutesModule) (restR : List RoutesModule)
    (inc : List Nat) (lgR : List LogMsg)
    (badI : RoutesModule) (restI : List RoutesModule)
    (pre : List RouteAttr) (post : List (Except PyErr RouteAttr))
    (inc2 : List Nat) (lg2 : List LogMsg)
    (e₁ e₂ e₃ : PyErr)
    (h1 : bad.importResult = Except.error e₁) (h2 : caught e₁ = false)
    (h3 : badR.importResult = Except.error e₂) (h4 : caught e₂ = false)
    (h5 : badI.importResult
      = Except.ok (pre.map Except.ok ++ Except.error e₃ :: post))
    (h6 : caught e₃ = false) :
    get_sql_models_loop root (bad :: rest) lastMod models lg = Except.error e₁ ∧
    add_features_routes_loop root (badR :: restR) inc lgR
      = RoutesResult.mk inc lgR (some e₂) ∧
    (add_features_routes_loop root (badI :: restI) inc2 lg2).err = some e₃ := by
  refine ⟨?_, ?_, ?_⟩
  · simp [get_sql_models_loop, h1, h2]
  · simp [add_features_routes_loop, h3, h4]
  · simp only [add_features_routes_loop, h5]
    rw [routeAttrsLoop_firstErr]
    simp [h6]

/-- Witness for C9 at concrete inputs: a `SyntaxError` on a models
import, a `NameError` on a routes import and a `NameError` during a
routes attribute enumeration each abort their batch, skipping a healthy
remaining candidate. -/
theorem C9_uncaught_propagates_witness :
    (ModelsModule.mk ("features.broken.models.tbl".toList)
        (Except.error (PyErr.syntaxError ("invalid syntax".toList)))).importResult
      = Except.error (PyErr.syntaxError ("invalid syntax".toList)) ∧
    caught (PyErr.syntaxError ("invalid syntax".toList)) = false ∧
    (RoutesModule.mk ("features.broken.routes".toList)
        (Except.error (PyErr.nameError ("undefined_name".toList)))).importResult
      = Except.error (PyErr.nameError ("undefined_name".toList)) ∧
    caught (PyErr.nameError ("undefined_name".toList)) = false ∧
    (RoutesModule.mk ("features.odd.routes".toList)
        (Except.ok ([RouteAttr.mk true 3].map Except.ok ++
          Except.error (PyErr.nameError ("lazy attr".toList)) ::
            [Except.ok (RouteAttr.mk true 4)]))).importResult
      = Except.ok ([RouteAttr.mk true 3].map Except.ok ++
          Except.error (PyErr.nameError ("lazy attr".toList)) ::
            [Except.ok (RouteAttr.mk true 4)]) ∧
    caught (PyErr.nameError ("lazy attr".toList)) = false ∧
    (get_sql_models_loop ("features".toList)
        [ModelsModule.mk ("features.broken.models.tbl".toList)
            (Except.error (PyErr.syntaxError ("invalid syntax".toList))),
          ModelsModule.mk ("features.ok.models.good".toList)
            (Except.ok [TableAttr.mk true true false (some ("good".toList))])]
        none [] []
      = Except.error (PyErr.syntaxError ("invalid syntax".toList)) ∧
    add_features_routes_loop ("features".toList)
        [RoutesModule.mk ("features.broken.routes".toList)
            (Except.error (PyErr.nameError ("undefined_name".toList))),
          RoutesModule.mk ("features.ok.routes".toList)
            (Except.ok [Except.ok (RouteAttr.mk true 7)])] [] []
      = RoutesResult.mk [] [] (some (PyErr.nameError ("undefined_name".toList))) ∧
    (add_features_routes_loop ("features".toList)
        [RoutesModule.mk ("features.odd.routes".toList)
            (Except.ok ([RouteAttr.mk true 3].map Except.ok ++
              Except.error (PyErr.nameError ("lazy attr".toList)) ::
                [Except.ok (RouteAttr.mk true 4)])),
          RoutesModule.mk ("features.ok.routes".toList)
            (Except.ok [Except.ok (RouteAttr.mk true 7)])] [] []).err
      = some (PyErr.nameError ("lazy attr".toList))) :=
  ⟨by decide, by decide, by decide, by decide, by decide, by decide,
    C9_uncaught_propagates ("features".toList)
      (ModelsModule.mk ("features.broken.models.tbl".toList)
        (Except.error (PyErr.syntaxError ("invalid syntax".toList))))
      [ModelsModule.mk ("features.ok.models.good".toList)
        (Except.ok [TableAttr.mk true true false (some ("good".toList))])]
      none [] []
      (RoutesModule.mk ("features.broken.routes".toList)
        (Except.error (PyErr.nameError ("undefined_name".toList))))
      [RoutesModule.mk ("features.ok.routes".toList)
        (Except.ok [Except.ok (RouteAttr.mk true 7)])]
      [] []
      (RoutesModule.mk ("features.odd.routes".toList)
        (Except.ok ([RouteAttr.mk true 3].map Except.ok ++
          Except.error (PyErr.nameError ("lazy attr".toList)) ::
            [Except.ok (RouteAttr.mk true 4)])))
      [RoutesModule.mk ("features.ok.routes".toList)
        (Except.ok [Except.ok (RouteAttr.mk true 7)])]
      [RouteAttr.mk true 3] [Except.ok (RouteAttr.mk true 4)]
      [] []
      (PyErr.syntaxError ("invalid syntax".toList))
      (PyErr.nameError ("undefined_name".toList))
      (PyErr.nameError ("lazy attr".toList))
      (by decide) (by decide) (by decide) (by decide) (by decide) (by decide)⟩

/-- C10: route registration is not atomic per module.  When the
attribute enumeration of a module raises partway (an `AttributeError`,
which the loop then catches), every router included before the error
stays in the application's route table — the final table extends the
partially registered state, with no rollback to the pre-module state. -/
theorem C10_partial_registration (root : QName) (m : RoutesModule)
    (ms : List RoutesModule) (inc : List Nat) (lg : List LogMsg)
    (pre : List RouteAttr) (e : PyErr) (post : List (Except PyErr RouteAttr))
    (him : m.importResult = Except.ok (pre.map Except.ok ++ Except.error e :: post))
    (hc : caught e = true) :
    ∃ t, (add_features_routes_loop root (m :: ms) inc lg).appRouters
      = (inc ++ (pre.filter (fun a => a.isAPIRouter)).map (fun a => a.routerId)) ++ t := by
  obtain ⟨dR, dLg, oe, hd⟩ := add_features_routes_loop_delta root ms
  refine ⟨dR, ?_⟩
  simp only [add_features_routes_loop, him]
  rw [routeAttrsLoop_firstErr]
  simp only [hc, if_true]
  rw [hd]

/-- Witness for C10 at a concrete input: router 5 is included, the next
attribute fetch raises `AttributeError`, and router 5 remains in the
application while enumeration of that module stops. -/
theorem C10_partial_registration_witness :
    (RoutesModule.mk ("features.odd.routes".toList)
        (Except.ok ([RouteAttr.mk true 5].map Except.ok ++
          Except.error (PyErr.attributeError ("ghost attr".toList)) ::
            [Except.ok (RouteAttr.mk true 9)]))).importResult
      = Except.ok ([RouteAttr.mk true 5].map Except.ok ++
          Except.error (PyErr.attributeError ("ghost attr".toList)) ::
            [Except.ok (RouteAttr.mk true 9)]) ∧
    caught (PyErr.attributeError ("ghost attr".toList)) = true ∧
    ∃ t, (add_features_routes_loop ("features".toList)
        [RoutesModule.mk ("features.odd.routes".toList)
          (Except.ok ([RouteAttr.mk true 5].map Except.ok ++
            Except.error (PyErr.attributeError ("ghost attr".toList)) ::
              [Except.ok (RouteAttr.mk true 9)]))] [] []).appRouters
      = ([] ++ ([RouteAttr.mk true 5].filter (fun a => a.isAPIRouter)).map
          (fun a => a.routerId)) ++ t :=
  ⟨by decide, by decide,
    C10_partial_registration ("features".toList)
      (RoutesModule.mk ("features.odd.routes".toList)
        (Except.ok ([RouteAttr.mk true 5].map Except.ok ++
          Except.error (PyErr.attributeError ("ghost attr".toList)) ::
            [Except.ok (RouteAttr.mk true 9)])))
      [] [] []
      [RouteAttr.mk true 5]
      (PyErr.attributeError ("ghost attr".toList))
      [Except.ok (RouteAttr.mk true 9)]
      (by decide) (by decide)⟩
